import Mathlib

/-!
Verification development for the orchestration core of `src/tinder_api.py`
(TinderPromptBot / FlameBot clone).  Each Python function named in the claims
is shallowly embedded as an executable Lean definition: machine integers
become `Nat`, Python floats in the timing engine become `ℚ` (the code only
ever combines config constants and uniform random draws by field operations),
byte strings become `List Nat`, and the random draws / remote responses that
a function consumes are passed in explicitly as oracle arguments.
-/

set_option maxRecDepth 8000

namespace TinderBot

/-! ## Login codec (`_encode_varint`, `_decode_varint`,
`_encode_refresh_auth_protobuf`, `_parse_auth_response_manual`,
src/tinder_api.py lines 1305-1419) -/

/-- Python `_encode_varint` (lines 1399-1406), with an explicit structural
bound on the loop: each iteration divides `value` by 128, so `value` itself
always bounds the iteration count.  `encodeVarint` below instantiates the
bound; `encodeVarint_eq` recovers the direct recursive reading of the
source loop. -/
def encodeVarintAux : Nat → Nat → List Nat
  | 0, value => [value &&& 0x7F]
  | fuel + 1, value =>
    if value ≥ 0x80 then
      ((value &&& 0x7F) ||| 0x80) :: encodeVarintAux fuel (value >>> 7)
    else
      [value &&& 0x7F]

/-- Python `_encode_varint` (lines 1399-1406): 7 bits per byte, little-endian
groups, continuation bit 0x80 on every byte except the last. -/
def encodeVarint (value : Nat) : List Nat :=
  encodeVarintAux value value

/-- Python `_decode_varint` (lines 1408-1419), phrased on the suffix of the
buffer that starts at `pos`.  Returns the decoded value together with the
number of bytes consumed (the Python version returns the new `pos`, which is
the old `pos` plus this count; positions only ever move forward). -/
def decodeVarintList : List Nat → Nat → Nat → Nat × Nat
  | [], _, acc => (acc, 0)
  | byte :: rest, shift, acc =>
    let acc' := acc ||| ((byte &&& 0x7F) <<< shift)
    if byte &&& 0x80 = 0 then (acc', 1)
    else
      let r := decodeVarintList rest (shift + 7) acc'
      (r.1, r.2 + 1)

/-- Strict UTF-8 decoding of a byte list, RFC 3629 as implemented by
Python's `bytes.decode('utf-8')`: one-byte sequences below 0x80; two-byte
sequences with lead 0xC2-0xDF (0xC0/0xC1 overlong rejected); three-byte
sequences with lead 0xE0-0xEF, restricting the first continuation byte to
0xA0-0xBF after 0xE0 (overlong) and to 0x80-0x9F after 0xED (surrogates);
four-byte sequences with lead 0xF0-0xF4, restricting the first continuation
byte to 0x90-0xBF after 0xF0 (overlong) and to 0x80-0x8F after 0xF4 (above
U+10FFFF).  Anything else — including any truncated sequence and any byte
0xF5-0xFF — yields `none`, the model of a raised `UnicodeDecodeError`. -/
def utf8DecodeList : List Nat → Option (List Char)
  | [] => some []
  | b0 :: rest =>
    if b0 < 0x80 then
      match utf8DecodeList rest with
      | some cs => some (Char.ofNat b0 :: cs)
      | none => none
    else if 0xC2 ≤ b0 ∧ b0 ≤ 0xDF then
      match rest with
      | b1 :: rest1 =>
        if 0x80 ≤ b1 ∧ b1 ≤ 0xBF then
          match utf8DecodeList rest1 with
          | some cs => some (Char.ofNat ((b0 - 0xC0) * 64 + (b1 - 0x80)) :: cs)
          | none => none
        else none
      | [] => none
    else if 0xE0 ≤ b0 ∧ b0 ≤ 0xEF then
      match rest with
      | b1 :: b2 :: rest2 =>
        if (if b0 = 0xE0 then 0xA0 ≤ b1 ∧ b1 ≤ 0xBF
            else if b0 = 0xED then 0x80 ≤ b1 ∧ b1 ≤ 0x9F
            else 0x80 ≤ b1 ∧ b1 ≤ 0xBF) ∧ 0x80 ≤ b2 ∧ b2 ≤ 0xBF then
          match utf8DecodeList rest2 with
          | some cs =>
            some (Char.ofNat ((b0 - 0xE0) * 4096 + (b1 - 0x80) * 64 + (b2 - 0x80)) :: cs)
          | none => none
        else none
      | _ => none
    else if 0xF0 ≤ b0 ∧ b0 ≤ 0xF4 then
      match rest with
      | b1 :: b2 :: b3 :: rest3 =>
        if (if b0 = 0xF0 then 0x90 ≤ b1 ∧ b1 ≤ 0xBF
            else if b0 = 0xF4 then 0x80 ≤ b1 ∧ b1 ≤ 0x8F
            else 0x80 ≤ b1 ∧ b1 ≤ 0xBF) ∧ 0x80 ≤ b2 ∧ b2 ≤ 0xBF ∧ 0x80 ≤ b3 ∧ b3 ≤ 0xBF then
          match utf8DecodeList rest3 with
          | some cs =>
            some (Char.ofNat ((b0 - 0xF0) * 262144 + (b1 - 0x80) * 4096 + (b2 - 0x80) * 64 +
              (b3 - 0x80)) :: cs)
          | none => none
        else none
      | _ => none
    else none

/-- Python `bytes.decode('utf-8')`: the decoded string on success, `none`
when the source would raise `UnicodeDecodeError`. -/
def utf8Decode? (bs : List Nat) : Option String :=
  (utf8DecodeList bs).map String.mk

/-- UTF-8 encoding of a string as done by Python `str.encode('utf-8')`,
modelled on the ASCII fragment. -/
def encodeUtf8 (s : String) : List Nat :=
  s.toList.map Char.toNat

/-- Python `_encode_refresh_auth_protobuf` (lines 1305-1310): the token bytes
wrapped in field 1 (tag byte 0x0A), wrapped again in field 10 (tag 0x52). -/
def encodeRefreshAuthProtobuf (refreshToken : String) : List Nat :=
  let refreshTokenBytes := encodeUtf8 refreshToken
  let refreshTokenField := 0x0A :: (encodeVarint refreshTokenBytes.length ++ refreshTokenBytes)
  0x52 :: (encodeVarint refreshTokenField.length ++ refreshTokenField)

/-- Generic length-delimited protobuf field with tag byte `8*fieldNum + 2`
(wire type 2).  Used to state claims about hand-built response buffers; for
field numbers below 16 this is exactly the framing the codec emits. -/
def encodeLenField (fieldNum : Nat) (payload : List Nat) : List Nat :=
  (8 * fieldNum + 2) :: (encodeVarint payload.length ++ payload)

/-- The success-shaped result dict of `_parse_auth_response_manual`:
`{"success": True, "auth_token": ..., "refresh_token": ..., "user_id": ...}`
with `None` as `Option.none`. -/
structure AuthOk where
  auth_token : Option String := none
  refresh_token : Option String := none
  user_id : Option String := none
deriving DecidableEq

/-- Full result of `_parse_auth_response_manual`: the success dict, the
field-7 failure dict `{"success": False, "error": msg}` (line 1381), or the
failure dict produced by the `except` handler of lines 1395-1397 when a
`UnicodeDecodeError` escapes a decode.  The handler's dict carries
`str(e)` — the Python rendering of the exception, which is never the text
of a successfully decoded field — so it is modelled as the distinct
constructor `codecException` rather than by reproducing the message. -/
inductive AuthResult where
  | ok (fields : AuthOk)
  | err (msg : String)
  | codecException
deriving DecidableEq

/-- Inner loop of `_parse_auth_response_manual` for a field-8 payload
(lines 1328-1355), with an explicit structural bound on the loop (every
iteration consumes at least one byte, so the buffer length bounds the
iteration count; `parseLoginFields` instantiates the bound): extracts
sub-fields 1 (refresh token), 2 (auth token) and 4 (user id); other
sub-fields are skipped by wire type (length-delimited skip, varint skip, or
the single-byte advance `lr_pos += 1` of line 1355).  A failing UTF-8
decode returns `none`, the raised `UnicodeDecodeError` that the caller's
`except` handler will turn into a failure dict. -/
def parseLoginFieldsF : Nat → List Nat → AuthOk → Option AuthOk
  | _, [], acc => some acc
  | 0, _ :: _, acc => some acc
  | fuel + 1, key :: rest, acc =>
    let fieldNum := key >>> 3
    if fieldNum = 1 then
      let r := decodeVarintList rest 0 0
      match utf8Decode? ((rest.drop r.2).take r.1) with
      | some s => parseLoginFieldsF fuel ((rest.drop r.2).drop r.1)
          { acc with refresh_token := some s }
      | none => none
    else if fieldNum = 2 then
      let r := decodeVarintList rest 0 0
      match utf8Decode? ((rest.drop r.2).take r.1) with
      | some s => parseLoginFieldsF fuel ((rest.drop r.2).drop r.1)
          { acc with auth_token := some s }
      | none => none
    else if fieldNum = 4 then
      let r := decodeVarintList rest 0 0
      match utf8Decode? ((rest.drop r.2).take r.1) with
      | some s => parseLoginFieldsF fuel ((rest.drop r.2).drop r.1)
          { acc with user_id := some s }
      | none => none
    else if key &&& 0x7 = 2 then
      let r := decodeVarintList rest 0 0
      parseLoginFieldsF fuel ((rest.drop r.2).drop r.1) acc
    else if key &&& 0x7 = 0 then
      let r := decodeVarintList rest 0 0
      parseLoginFieldsF fuel (rest.drop r.2) acc
    else
      parseLoginFieldsF fuel (rest.drop 1) acc

/-- The field-8 sub-loop at its natural iteration bound. -/
def parseLoginFields (loginData : List Nat) (acc : AuthOk) : Option AuthOk :=
  parseLoginFieldsF loginData.length loginData acc

/-- Inner loop of `_parse_auth_response_manual` for a field-7 payload
(lines 1362-1379), with the same structural bound: scans the whole payload,
keeping the last sub-field 1 as the error message; other sub-fields are
skipped by length (wire type 2) or by the single-byte advance
`error_pos += 1` of line 1379.  A failing UTF-8 decode of the message
returns `none` (raised `UnicodeDecodeError`). -/
def parseErrorMessageF : Nat → List Nat → String → Option String
  | _, [], msg => some msg
  | 0, _ :: _, msg => some msg
  | fuel + 1, key :: rest, msg =>
    let fieldNum := key >>> 3
    if fieldNum = 1 then
      let r := decodeVarintList rest 0 0
      match utf8Decode? ((rest.drop r.2).take r.1) with
      | some s => parseErrorMessageF fuel ((rest.drop r.2).drop r.1) s
      | none => none
    else if key &&& 0x7 = 2 then
      let r := decodeVarintList rest 0 0
      parseErrorMessageF fuel ((rest.drop r.2).drop r.1) msg
    else
      parseErrorMessageF fuel (rest.drop 1) msg

/-- The field-7 sub-loop at its natural iteration bound. -/
def parseErrorMessage (errorData : List Nat) (msg : String) : Option String :=
  parseErrorMessageF errorData.length errorData msg

/-- Outer loop of `_parse_auth_response_manual` (lines 1317-1393), with the
same structural bound: walks the buffer field by field; field 8 is parsed
as the nested login result, field 7 returns the failure dict immediately,
everything else is skipped by wire type (length-delimited / varint /
the single-byte advance `pos += 1` of line 1391).  A `UnicodeDecodeError`
raised inside either sub-loop aborts the walk and surfaces as the `except`
handler's failure dict (`codecException`). -/
def parseAuthFieldsF : Nat → List Nat → AuthOk → AuthResult
  | _, [], acc => .ok acc
  | 0, _ :: _, acc => .ok acc
  | fuel + 1, key :: rest, acc =>
    let fieldNum := key >>> 3
    if fieldNum = 8 then
      let r := decodeVarintList rest 0 0
      match parseLoginFields ((rest.drop r.2).take r.1) acc with
      | some acc' => parseAuthFieldsF fuel ((rest.drop r.2).drop r.1) acc'
      | none => .codecException
    else if fieldNum = 7 then
      let r := decodeVarintList rest 0 0
      match parseErrorMessage ((rest.drop r.2).take r.1) "" with
      | some msg => .err msg
      | none => .codecException
    else if key &&& 0x7 = 2 then
      let r := decodeVarintList rest 0 0
      parseAuthFieldsF fuel ((rest.drop r.2).drop r.1) acc
    else if key &&& 0x7 = 0 then
      let r := decodeVarintList rest 0 0
      parseAuthFieldsF fuel (rest.drop r.2) acc
    else
      parseAuthFieldsF fuel (rest.drop 1) acc

/-- The outer field loop at its natural iteration bound. -/
def parseAuthFields (data : List Nat) (acc : AuthOk) : AuthResult :=
  parseAuthFieldsF data.length data acc

/-- Python `_parse_auth_response_manual` (lines 1312-1397) on a byte buffer,
starting from the all-`None` success dict of line 1315. -/
def parseAuthResponseManual (data : List Nat) : AuthResult :=
  parseAuthFields data {}

/-! ## Ban/error classifier (`_check_ban_indicators`,
src/tinder_api.py lines 2381-2409) -/

/-- Python substring containment `needle in haystack` on character lists. -/
def hasSublist (needle haystack : List Char) : Bool :=
  if needle.isPrefixOf haystack then true
  else
    match haystack with
    | [] => false
    | _ :: t => hasSublist needle t

/-- Python `needle in haystack` on strings. -/
def strIn (needle haystack : String) : Bool :=
  hasSublist needle.toList haystack.toList

/-- Python `str.lower()`, modelled on the ASCII fragment (every indicator
phrase the classifier scans for is ASCII). -/
def asciiLower (s : String) : String :=
  String.mk (s.toList.map Char.toLower)

/-- The `BAN_INDICATORS` list configured at src/tinder_api.py lines 1578-1584. -/
def BAN_INDICATORS : List String :=
  ["rate_limited_until", "APPEAL_BAN", "account_disabled",
   "temporarily_unavailable", "too_many_requests"]

/-- Severity chosen at line 2391: 1.0 for the explicit disable phrases,
0.7 for the rest of the indicator list. -/
def indicatorSeverity (indicator : String) : ℚ :=
  if indicator = "APPEAL_BAN" ∨ indicator = "account_disabled" then 1 else 7/10

/-- A Python response dict as observed by `_check_ban_indicators`: the
function only looks at `str(response).lower()` (modelled by the field
`reprLower`, holding the lowercased `str()` form) and at whether the
response is an empty dict (line 2401). -/
structure PyResponse where
  reprLower : String
  isEmptyDict : Bool

/-- The indicator loop of lines 2389-2393, accumulating severities. -/
def banIndicatorLoop (responseStr : String) : List String → ℚ → ℚ
  | [], score => score
  | indicator :: rest, score =>
    banIndicatorLoop responseStr rest
      (if strIn (asciiLower indicator) responseStr then score + indicatorSeverity indicator
       else score)

/-- Python `_check_ban_indicators` (lines 2381-2409): indicator scan, the
rate-limiting pattern check of line 2396 (+0.5) and the empty-response check
of line 2401 (+0.2); the accumulated score is returned. -/
def checkBanIndicators (response : PyResponse) : ℚ :=
  let responseStr := response.reprLower
  let banScore := banIndicatorLoop responseStr BAN_INDICATORS 0
  let banScore :=
    if strIn "rate_limited_until" responseStr ∨ strIn "too_many_requests" responseStr then
      banScore + 1/2
    else banScore
  let banScore := if response.isEmptyDict then banScore + 1/5 else banScore
  banScore

/-! ## Request headers (`TinderApi.headers`, src/tinder_api.py lines 250-317) -/

/-- Python dict assignment `d[k] = v` on an insertion-ordered dict:
overwrite the entry holding the key in place, else append a fresh entry
(keys are unique by construction, so replacing the first occurrence is
exact). -/
def dictSet : List (String × String) → String → String → List (String × String)
  | [], k, v => [(k, v)]
  | p :: rest, k, v => if p.1 = k then (k, v) :: rest else p :: dictSet rest k v

/-- Python `d.pop(k, None)`: drop the key if present. -/
def dictPop : List (String × String) → String → List (String × String)
  | [], _ => []
  | p :: rest, k => if p.1 = k then dictPop rest k else p :: dictPop rest k

/-- Python `d.get(k)` as used to observe a headers dict. -/
def dictGet : List (String × String) → String → Option String
  | [], _ => none
  | p :: rest, k => if p.1 = k then some p.2 else dictGet rest k

/-- The per-instance state `TinderApi.headers` reads: identifiers are kept as
abstract strings, `self.auth_token` keeps Python truthiness as an `Option`
(`none` for both `None` and the empty string), and `str(elapsed_time)` /
`self._generate_correlation_id()` / the random `connection-speed` are passed
in as already-rendered strings. -/
structure ApiHeaderState where
  auth_token : Option String
  os_version : String
  device_ram : String
  persistent_device_id : String
  app_session_id : String
  install_id : String
  user_session_id : String
  appsflyer_id : String
  advertising_id : String
  funnel_session_id : String
  x_request_id : String
  x_hubble_entity_id : String
  hubble_network_id : String

/-- Python `TinderApi.headers` (lines 250-317): the base dict of lines
255-271, the three conditional blocks of lines 274-284, and the
endpoint-specific section of lines 287-314 (for `"auth"`: add the four auth
headers, then pop `x-auth-token`, `user-session-id` and
`user-session-time-elapsed`). -/
def headersFn (st : ApiHeaderState) (endpointType : String) (includeCorrelation : Bool)
    (elapsedStr correlationId connectionSpeed : String) : List (String × String) :=
  let base : List (String × String) :=
    [("User-Agent", "Tinder Android Version 16.11.0"),
     ("os-version", st.os_version),
     ("app-version", "4732"),
     ("platform", "android"),
     ("platform-variant", "Google-Play"),
     ("x-supported-image-formats", "webp"),
     ("accept-language", "en-US"),
     ("tinder-version", "16.11.0"),
     ("store-variant", "Play-Store"),
     ("x-device-ram", st.device_ram),
     ("persistent-device-id", st.persistent_device_id),
     ("app-session-id", st.app_session_id),
     ("app-session-time-elapsed", elapsedStr),
     ("install-id", st.install_id),
     ("accept-encoding", "gzip")]
  let base :=
    match st.auth_token with
    | some tok =>
      if ¬ (endpointType = "auth" ∨ endpointType = "healthcheck" ∨ endpointType = "buckets_initial")
      then dictSet base "x-auth-token" tok else base
    | none => base
  let base :=
    if ¬ (endpointType = "auth" ∨ endpointType = "healthcheck" ∨ endpointType = "buckets_initial")
    then dictSet (dictSet base "user-session-id" st.user_session_id)
           "user-session-time-elapsed" elapsedStr
    else base
  let base :=
    if includeCorrelation ∧ ¬ (endpointType = "healthcheck" ∨ endpointType = "auth")
    then dictSet base "x-correlation-id" correlationId
    else base
  if endpointType = "auth" then
    let base := dictSet base "appsflyer-id" st.appsflyer_id
    let base := dictSet base "advertising-id" st.advertising_id
    let base := dictSet base "funnel-session-id" st.funnel_session_id
    let base := dictSet base "Content-Type" "application/x-protobuf"
    let base := dictPop base "x-auth-token"
    let base := dictPop base "user-session-id"
    dictPop base "user-session-time-elapsed"
  else if endpointType = "profile" then
    dictSet base "support-short-video" "1"
  else if endpointType = "recs" then
    let base := dictSet base "support-short-video" "1"
    let base := dictSet base "connection-speed" connectionSpeed
    let base := dictSet base "x-request-id" st.x_request_id
    dictSet base "x-hubble-entity-id" st.x_hubble_entity_id
  else if endpointType = "like" then
    dictSet base "x-hubble-network-id" st.hubble_network_id
  else if endpointType = "json_post" then
    dictSet base "Content-Type" "application/json; charset=UTF-8"
  else base

/-! ## Timing engine (`adaptive_delay`, src/tinder_api.py lines 2140-2170) -/

/-- Per-session counters of `self.current_session` that `adaptive_delay`
reads (lines 2157-2161). -/
structure SessionCounters where
  error_count : Nat
  actions_count : Nat

/-- Python's built-in `max` on two rationals (kept as an executable `if` so
that concrete delays evaluate; `pymax_eq_max` identifies it with `max`). -/
def pymax (a b : ℚ) : ℚ :=
  if a ≤ b then b else a

/-- The `BASE_DELAYS` table of lines 1501-1508, composed with the fallback of
lines 2142-2143 (an unknown delay type is replaced by `'short'`). -/
def baseDelayRange (delayType : String) : ℚ × ℚ :=
  if delayType = "micro" then (1/10, 1/2)
  else if delayType = "short" then (1/2, 2)
  else if delayType = "medium" then (2, 5)
  else if delayType = "long" then (5, 15)
  else if delayType = "break" then (30, 120)
  else if delayType = "session_gap" then (300, 900)
  else (1/2, 2)

/-- Python `adaptive_delay` (lines 2140-2170) as a pure function of the
delay class, the caller-supplied factor, the configured variance and the
three uniform draws it consumes: `r1` and `r2` are the two `random.random()`
calls of lines 2149-2150 and `r3` encodes `random.uniform(a, b)` of line
2164 as `a + r3 * (b - a)`.  The returned value is the duration slept.
Note that the two session-state adjustments of lines 2157-2161 rescale the
local variable `factor` after both bounds have already been computed, so
(as in the source) they cannot influence the sampled delay. -/
def adaptiveDelay (variance : ℚ) (sess : SessionCounters) (delayType : String)
    (factor r1 r2 r3 : ℚ) : ℚ :=
  let range := baseDelayRange delayType
  let baseMin := range.1
  let baseMax := range.2
  let minDelay := baseMin * factor * (1 - variance + r1 * variance * 2)
  let maxDelay := baseMax * factor * (1 - variance + r2 * variance * 2)
  let minDelay := pymax (1/20) minDelay
  let maxDelay := pymax (minDelay + 1/10) maxDelay
  let factor := if sess.error_count > 0 then factor * (1 + (sess.error_count : ℚ) * (1/5)) else factor
  let _factorAfterFatigue := if sess.actions_count > 50 then factor * (13/10) else factor
  minDelay + r3 * (maxDelay - minDelay)

/-! ## Request-pattern executor (`execute_request_pattern`,
src/tinder_api.py lines 2172-2235).  The executor is modelled by the trace
of observable events it produces: one `call` event per `_execute_single_request`
invocation (which catches its own exceptions and returns a success flag,
lines 2253-2341), one `delayBetweenRepeats` event per micro-delay inserted
inside a step's repeat loop (line 2220), and one `delayBetweenSteps` event
per inter-step delay (line 2224).  Claims C3 is stated for runs in which
`self.running` stays true. -/

/-- One entry of a `REQUEST_PATTERNS` list (the `RequestPattern` dataclass,
lines 1474-1481). -/
structure ReqStep where
  endpoint : String
  method : String
  repeat_count : Nat
  delay_range : ℚ × ℚ
  critical : Bool
deriving DecidableEq

/-- Observable events of one `execute_request_pattern` run, tagged with the
index of the step that produced them. -/
inductive TraceEvent where
  | call (stepIdx : Nat) (endpoint : String) (success : Bool)
  | delayBetweenRepeats (stepIdx : Nat)
  | delayBetweenSteps (stepIdx : Nat) (delayClass : String)
deriving DecidableEq

/-- The repeat loop of lines 2187-2220 for one step: `remaining` repeats are
left, the current one having index `rep`; a micro-delay is inserted after
every request except the last (line 2219).  `oc rep` is the success flag
returned by `_execute_single_request` for repeat `rep`. -/
def stepRepeatEvents (oc : Nat → Bool) (stepIdx : Nat) (endpoint : String) :
    Nat → Nat → List TraceEvent
  | _, 0 => []
  | rep, remaining + 1 =>
    .call stepIdx endpoint (oc rep) ::
      ((if remaining = 0 then [] else [.delayBetweenRepeats stepIdx]) ++
        stepRepeatEvents oc stepIdx endpoint (rep + 1) remaining)

/-- The step loop of lines 2181-2229: each step runs its repeat loop, then
(line 2223) inserts an inter-step delay unless the step equals the final
entry of the list (`pattern != patterns[-1]`, dataclass value equality); the
delay class is `'short'` for critical steps and `'micro'` otherwise.
`oc i rep` is the success flag of repeat `rep` of the step at index `i`. -/
def execPatternSteps (oc : Nat → Nat → Bool) (lastStep : Option ReqStep) :
    Nat → List ReqStep → List TraceEvent
  | _, [] => []
  | i, step :: rest =>
    stepRepeatEvents (oc i) i step.endpoint 0 step.repeat_count ++
      ((if some step ≠ lastStep then
          [.delayBetweenSteps i (if step.critical then "short" else "micro")]
        else []) ++
        execPatternSteps oc lastStep (i + 1) rest)

/-- Python `execute_request_pattern` (lines 2172-2235) for a known pattern
list, as the trace of wire-client calls and delays it issues while
`self.running` stays true. -/
def executeRequestPattern (oc : Nat → Nat → Bool) (steps : List ReqStep) : List TraceEvent :=
  execPatternSteps oc steps.getLast? 0 steps

/-- Counters aggregated into the `results` dict of line 2179: `requests_made`
is the number of call events, `errors` the number of failed ones. -/
def patternRequestsMade (trace : List TraceEvent) : Nat :=
  trace.countP (fun e => match e with | .call _ _ _ => true | _ => false)

/-- Failed calls of a trace (`results['errors']`, line 2211). -/
def patternErrors (trace : List TraceEvent) : Nat :=
  trace.countP (fun e => match e with | .call _ _ ok => ¬ ok | _ => false)

/-- Predicate: a call event belonging to step `i`. -/
def isCallOfStep (i : Nat) : TraceEvent → Bool
  | .call j _ _ => j = i
  | _ => false

/-- Predicate: a between-repeats micro-delay event belonging to step `i`. -/
def isRepeatDelayOfStep (i : Nat) : TraceEvent → Bool
  | .delayBetweenRepeats j => j = i
  | _ => false

/-! ## Queue batch processor (`process_all_liked_me_enhanced` lines 4280-4407
and `_process_single_liked_user` lines 4424-4478).  Remote interaction is
passed in as oracles: `countFetches` is the list of `api.liked_me_count()`
results consumed by the initial status check (lines 4294-4299), `pages` the
successive results of `api.liked_me(...)` (a fetch past the end of the list
returns no data), and each user carries the outcome of its `api.like_user`
call.  The model covers runs in which `datetime.now() < session_end_time`
stays true and `self.running` stays true, which is what claims C2 and C9
assume; the two `time.sleep` calls of lines 4326 and 4375 do not change any
modelled state and are omitted. -/

/-- Result of one `api.like_user(...)` call as inspected by lines 4455-4456:
`False` (failure), `True` (plain success) or the string `"match"`. -/
inductive LikeOutcome where
  | fail
  | success
  | matched
deriving DecidableEq

/-- One element of a `liked_me` page: the user id `user_data["user"]["_id"]`
(`none` when the key is missing, `some ""` staying Python-falsy is kept as
an explicit empty string) and the oracle outcome of liking this user. -/
structure LikedUser where
  uid : Option String
  outcome : LikeOutcome
deriving DecidableEq

/-- Result dict of `_process_single_liked_user` (line 4427/4458), plus the
instrumentation flag recording whether `api.like_user` was invoked. -/
structure SingleLikeResult where
  action : Option String
  matched : Bool
  succeeded : Bool
  likeCalled : Bool

/-- Python `_process_single_liked_user` (lines 4424-4478): a missing or
falsy user id returns the empty result without calling the wire client;
otherwise the user is always liked (no pass probability, line 4442) and the
result records whether the like matched. -/
def processSingleLikedUser (u : LikedUser) : SingleLikeResult :=
  match u.uid with
  | none => { action := none, matched := false, succeeded := false, likeCalled := false }
  | some uid =>
    if uid = "" then { action := none, matched := false, succeeded := false, likeCalled := false }
    else
      { action := some "like"
        matched := u.outcome = .matched
        succeeded := ¬ u.outcome = .fail
        likeCalled := true }

/-- The de-duplication filter of lines 4332-4338: keep the users whose id is
truthy and not yet in `processed_user_ids`, adding kept ids to the set (so a
page-internal duplicate is also dropped).  Returns the new users and the
extended id set. -/
def filterNewUsers (seen : List String) : List LikedUser → List LikedUser × List String
  | [] => ([], seen)
  | u :: rest =>
    match u.uid with
    | some uid =>
      if uid ≠ "" ∧ uid ∉ seen then
        let r := filterNewUsers (seen ++ [uid]) rest
        (u :: r.1, r.2)
      else filterNewUsers seen rest
    | none => filterNewUsers seen rest

/-- The per-page counters of lines 4348-4350 plus the number of users
processed in this page and the instrumentation count of `api.like_user`
calls. -/
structure BatchAcc where
  batch_likes : Nat
  batch_passes : Nat
  batch_matches : Nat
  processed : Nat
  like_calls : Nat
deriving DecidableEq

/-- The per-user loop of lines 4352-4375 (with the session clock before the
end bound and `self.running` true): process the user, update the batch
counters and `stats['users_processed']`, and stop once
`stats['likes_sent'] + batch_likes` reaches `max_likes_per_session`
(line 4369).  `likesSentBefore` is `stats['likes_sent']` at loop entry. -/
def processBatchUsers (maxLikesPerSession : Nat) (likesSentBefore : Nat)
    (acc : BatchAcc) : List LikedUser → BatchAcc
  | [] => acc
  | u :: rest =>
    let r := processSingleLikedUser u
    let acc := { acc with like_calls := acc.like_calls + (if r.likeCalled then 1 else 0) }
    let acc :=
      if r.action = some "like" then
        { acc with
          batch_likes := acc.batch_likes + 1
          batch_matches := acc.batch_matches + (if r.matched then 1 else 0) }
      else if r.action = some "pass" then
        { acc with batch_passes := acc.batch_passes + 1 }
      else acc
    let acc := { acc with processed := acc.processed + 1 }
    if likesSentBefore + acc.batch_likes ≥ maxLikesPerSession then acc
    else processBatchUsers maxLikesPerSession likesSentBefore acc rest

/-- The `stats` dict initialised at lines 4282-4290. -/
structure LikedStats where
  users_processed : Nat
  likes_sent : Nat
  passes_sent : Nat
  matches_gained : Nat
  api_calls_made : Nat
  cycles_completed : Nat
  total_available : Nat
deriving DecidableEq

/-- Configuration read by the processor: `max_likes_per_session` (line 4369)
and `process_all_liked_me` (line 4389). -/
structure BatchCfg where
  max_likes_per_session : Nat
  process_all_liked_me : Bool

/-- The pagination loop of lines 4311-4397 (session end not reached and
`self.running` true throughout): fetch a page (one wire call), stop on an
empty page, de-duplicate and stop if nothing is new, run the per-user loop,
fold the batch counters into `stats`, then stop on the like quota, on
`process_all_liked_me` being false, or once
`total_available - users_processed` is no longer positive.  Returns the
final stats and the accumulated `api.like_user` call count. -/
def likedMeLoop (cfg : BatchCfg) :
    List (List LikedUser) → List String → LikedStats → Nat → LikedStats × Nat
  | [], _, stats, likeCalls =>
    ({ stats with api_calls_made := stats.api_calls_made + 1 }, likeCalls)
  | page :: rest, seen, stats, likeCalls =>
    let stats := { stats with api_calls_made := stats.api_calls_made + 1 }
    if page = [] then (stats, likeCalls)
    else
      let fr := filterNewUsers seen page
      if fr.1 = [] then (stats, likeCalls)
      else
        let acc := processBatchUsers cfg.max_likes_per_session stats.likes_sent
          ⟨0, 0, 0, 0, 0⟩ fr.1
        let stats :=
          { stats with
            users_processed := stats.users_processed + acc.processed
            likes_sent := stats.likes_sent + acc.batch_likes
            passes_sent := stats.passes_sent + acc.batch_passes
            matches_gained := stats.matches_gained + acc.batch_matches
            cycles_completed := stats.cycles_completed + 1 }
        let likeCalls := likeCalls + acc.like_calls
        if stats.likes_sent ≥ cfg.max_likes_per_session then (stats, likeCalls)
        else if ¬ cfg.process_all_liked_me then (stats, likeCalls)
        else if stats.total_available ≤ stats.users_processed then (stats, likeCalls)
        else likedMeLoop cfg rest fr.2 stats likeCalls

/-- Python `process_all_liked_me_enhanced` (lines 4280-4407): the initial
status check of lines 4294-4304 (1-3 `liked_me_count()` fetches, the last
non-`None` result becoming `total_available`; a zero total writes back a
cached count of 0 and returns), then the pagination loop, then the cached
count write-back of lines 4400-4401.  Python's
`max(0, total_available - users_processed)` over ints equals truncated `Nat`
subtraction.  Returns the final stats, the number of `api.like_user` calls
issued, and the cached liked-me count written back. -/
def processAllLikedMeEnhanced (cfg : BatchCfg) (countFetches : List (Option Nat))
    (pages : List (List LikedUser)) : LikedStats × Nat × Nat :=
  let stats0 : LikedStats := ⟨0, 0, 0, 0, 0, 0, 0⟩
  let stats0 := countFetches.foldl
    (fun st c =>
      let st := { st with api_calls_made := st.api_calls_made + 1 }
      match c with
      | some n => { st with total_available := n }
      | none => st)
    stats0
  if stats0.total_available = 0 then (stats0, 0, 0)
  else
    let r := likedMeLoop cfg pages [] stats0 0
    (r.1, r.2, r.1.total_available - r.1.users_processed)

/-! ## Session orchestrator (`process_single_account_enhanced` lines
3057-3215, `start_enhanced_session` lines 2896-2946, `end_enhanced_session`
lines 2948-2996).  The persisted `enhanced_sessions` table is modelled as a
list of session rows with a logical clock standing in for `datetime.now()`;
every remote/sub-component interaction of the try block is abstracted into a
script of outcomes, and an exception raised inside the `try` of line 3104 is
modelled as an early exit of `tryBody` (the `except` of line 3208 only logs,
and the `finally` of line 3213 always runs `end_enhanced_session`). -/

/-- One row of the `enhanced_sessions` table as far as the claims observe
it: the row id and the `session_end` column (NULL on insert). -/
structure SessionRow where
  sid : Nat
  session_end : Option Nat
deriving DecidableEq

/-- The persisted state threaded through a run: the `enhanced_sessions` rows
and a logical clock supplying `datetime.now()` values. -/
structure SessionDb where
  sessions : List SessionRow
  clock : Nat
deriving DecidableEq

/-- Python `start_enhanced_session` (lines 2896-2946): on success insert one
row with NULL `session_end` and return its rowid; on an exception the
transaction rolls back and 0 is returned (line 2946). -/
def startEnhancedSession (ok : Bool) (db : SessionDb) : Nat × SessionDb :=
  if ok then
    let sid := db.sessions.length + 1
    (sid, { sessions := db.sessions ++ [{ sid := sid, session_end := none }]
            clock := db.clock + 1 })
  else (0, db)

/-- Python `end_enhanced_session` (lines 2948-2996): update the row with the
given id, setting `session_end` to the current time (the other aggregate
columns are not observed by any claim). -/
def endEnhancedSession (db : SessionDb) (sessionId : Nat) : SessionDb :=
  { sessions := db.sessions.map
      (fun row => if row.sid = sessionId then { row with session_end := some db.clock } else row)
    clock := db.clock + 1 }

/-- Oracle outcomes of one `process_single_account_enhanced` run.  The
boolean fields record what the abstracted sub-calls return; the two `raise`
fields inject an exception at the corresponding phase (any exception
escaping the phase code, e.g. from `smart_update_profile_enhanced` or from
the liking phase of lines 3176-3189). -/
structure OrchScript where
  startOk : Bool
  apiOk : Bool
  startupOk : Bool
  profileOk : Bool
  isGold : Bool
  fetchedCount : Option Nat
  cachedCount : Nat
  shouldCheckLikes : Bool
  recheckCount : Option Nat
  needsUpdate : Bool
  raiseProfileUpdate : Bool
  raiseLiking : Bool
  likeCfg : Bool

/-- The `try` block of lines 3104-3206.  Each alternative mirrors one exit
of the Python block; a branch that raises returns the database as-is and
leaves finalization to the `finally` handler in
`processSingleAccountEnhanced`; the early returns of lines 3119, 3129 and
3163 call `end_enhanced_session` explicitly before leaving the block (the
`finally` then runs it a second time on the same row). -/
def tryBody (s : OrchScript) (sessionId : Nat) (db : SessionDb) : SessionDb :=
  if ¬ s.startupOk then db
  else if ¬ s.profileOk then endEnhancedSession db sessionId
  else if ¬ s.isGold then endEnhancedSession db sessionId
  else
    let c1 : Nat :=
      match s.fetchedCount with
      | some n => n
      | none => s.cachedCount
    if c1 = 0 ∧ ¬ s.shouldCheckLikes then
      -- skip branch of lines 3155-3164: profile-update phase, explicit end, return
      if s.raiseProfileUpdate then db else endEnhancedSession db sessionId
    else
      -- after the recheck of lines 3146-3153 the local count may be None again
      let likedCount : Option Nat := if c1 = 0 then s.recheckCount else some c1
      if s.needsUpdate ∧ s.raiseProfileUpdate then db
      else
        match likedCount with
        | none =>
          -- `None > 0` at line 3176 raises a TypeError when the toggle is on;
          -- with the toggle off the phase is skipped and the block completes
          db
        | some n =>
          if s.likeCfg ∧ n > 0 then
            if s.raiseLiking then db else db
          else db

/-- Python `process_single_account_enhanced` (lines 3057-3215): start a
session (returning untouched if that fails, line 3075), finalize and return
if the API cannot be initialised (lines 3088-3092), otherwise run the `try`
block, with the `finally` of line 3213 always calling
`end_enhanced_session`. -/
def processSingleAccountEnhanced (s : OrchScript) (db : SessionDb) : SessionDb :=
  let r := startEnhancedSession s.startOk db
  let sessionId := r.1
  let db := r.2
  if sessionId = 0 then db
  else if ¬ s.apiOk then endEnhancedSession db sessionId
  else endEnhancedSession (tryBody s sessionId db) sessionId

/-! ## Concrete instance data used by individual claims -/

/-- Field-8 payload of the hand-built response of claim C7: sub-fields
2 = "AUTH1", 1 = "REFRESH1", 4 = "UID1". -/
def loginPayloadC7 : List Nat :=
  encodeLenField 2 (encodeUtf8 "AUTH1") ++ encodeLenField 1 (encodeUtf8 "REFRESH1") ++
    encodeLenField 4 (encodeUtf8 "UID1")

/-- The hand-built login response of claim C7. -/
def responseC7 : List Nat := encodeLenField 8 loginPayloadC7

/-- The field-7 error message of claim C8: sub-field 1 = "bad token". -/
def errFieldC8 : List Nat := encodeLenField 7 (encodeLenField 1 (encodeUtf8 "bad token"))

/-- Counterexample prefix for claim C8: a field 8 whose sub-field 1 is the
single byte 0xFF, which is never valid UTF-8, so the decode at line 1337
raises before field 7 is ever reached. -/
def badUtf8FieldC8 : List Nat := encodeLenField 8 [0x0A, 0x01, 0xFF]

/-- Queue scenario of claim C2: 25 distinct available users, every like
succeeding without a match. -/
def queueUsersC2 : List LikedUser :=
  (List.range 25).map (fun k => { uid := some (toString k), outcome := .success })

/-- The `liked_me_processing` pattern of lines 1539-1544 (a triple
`fast_match_count` burst followed by three single-shot steps); used as the
concrete pattern in the C3 witness. -/
def likedMeProcessingPattern : List ReqStep :=
  [⟨"fast_match_count", "GET", 3, (1/10, 1/2), true⟩,
   ⟨"fast_match_newcount", "GET", 1, (1/10, 1/2), true⟩,
   ⟨"liked_me_batch", "GET", 1, (1/2, 2), true⟩,
   ⟨"fast_match_teaser", "GET", 1, (1/10, 1/2), true⟩]

/-- Orchestrator run script of the C1 witness: every startup stage
succeeds, three inbound likes are reported, the profile needs no update and
an exception is raised during the liking phase. -/
def orchScriptC1 : OrchScript :=
  { startOk := true, apiOk := true, startupOk := true, profileOk := true, isGold := true
    fetchedCount := some 3, cachedCount := 0, shouldCheckLikes := false, recheckCount := none
    needsUpdate := false, raiseProfileUpdate := false, raiseLiking := true, likeCfg := true }

/-! ## Theorems -/

/-- C7: encoding the refresh token "abc" produces the two-level
length-delimited framing (inner field number 1 wrapping the token bytes,
outer field number 10, i.e. the bytes `52 05 0A 03 61 62 63`), and decoding
the hand-built response whose field 8 contains sub-fields 2 = "AUTH1",
1 = "REFRESH1", 4 = "UID1" yields the success dict with auth token "AUTH1",
refresh token "REFRESH1" and user id "UID1". -/
theorem claim_C7_login_codec_roundtrip :
    encodeRefreshAuthProtobuf "abc" = encodeLenField 10 (encodeLenField 1 (encodeUtf8 "abc")) ∧
    encodeRefreshAuthProtobuf "abc" = [0x52, 5, 0x0A, 3, 97, 98, 99] ∧
    parseAuthResponseManual responseC7 =
      .ok { auth_token := some "AUTH1", refresh_token := some "REFRESH1", user_id := some "UID1" } := by
  refine ⟨by decide, by decide, by decide⟩

/-- C4: the duration produced by `adaptive_delay` is monotonically
non-decreasing in the session's accumulated error count and in the number
of actions already taken: with identical delay class, configuration and
random draws, a call made with higher counters sleeps at least as long.
The two counters in fact never reach the sampled delay at all: lines
2157-2161 rescale the local `factor` only after both bounds were computed,
so the two sides are equal. -/
theorem claim_C4_delay_monotone_in_session_state (variance : ℚ) (s1 s2 : SessionCounters)
    (delayType : String) (factor r1 r2 r3 : ℚ)
    (herr : s1.error_count ≤ s2.error_count) (hact : s1.actions_count ≤ s2.actions_count) :
    adaptiveDelay variance s1 delayType factor r1 r2 r3 ≤
      adaptiveDelay variance s2 delayType factor r1 r2 r3 :=
  le_of_eq rfl

/-- Witness for C4 at concrete counters (0,0) against (3,60). -/
theorem claim_C4_delay_monotone_in_session_state_witness :
    (0 : Nat) ≤ 3 ∧ (0 : Nat) ≤ 60 ∧
    adaptiveDelay (3/10) ⟨0, 0⟩ "short" 1 (1/2) (1/2) (1/2) ≤
      adaptiveDelay (3/10) ⟨3, 60⟩ "short" 1 (1/2) (1/2) (1/2) :=
  ⟨by decide, by decide,
    claim_C4_delay_monotone_in_session_state (3/10) ⟨0, 0⟩ ⟨3, 60⟩ "short" 1 (1/2) (1/2) (1/2)
      (by decide) (by decide)⟩

/-- Helper: `pymax` is the lattice `max` on `ℚ`. -/
theorem pymax_eq_max (a b : ℚ) : pymax a b = max a b := by
  rw [pymax, max_def]

/-- Helper: positivity and ordering of every base range the table (or its
fallback) can produce. -/
theorem baseDelayRange_pos (delayType : String) :
    0 ≤ (baseDelayRange delayType).1 ∧ (baseDelayRange delayType).1 ≤ (baseDelayRange delayType).2 := by
  unfold baseDelayRange
  split_ifs <;> norm_num

/-- Helper: sharp bounds for `adaptiveDelay` under the clamping of lines
2153-2154; the lower bound is the claimed one, the upper bound additionally
carries the `min_delay + 0.1` clamp. -/
theorem adaptiveDelay_bounds (variance factor r1 r2 r3 : ℚ) (sess : SessionCounters)
    (delayType : String)
    (hv0 : 0 ≤ variance) (hf : 0 ≤ factor)
    (hr1 : 0 ≤ r1) (hr1' : r1 ≤ 1) (hr2 : 0 ≤ r2) (hr2' : r2 ≤ 1)
    (hr3 : 0 ≤ r3) (hr3' : r3 ≤ 1) :
    max (1/20) ((baseDelayRange delayType).1 * factor * (1 - variance)) ≤
        adaptiveDelay variance sess delayType factor r1 r2 r3 ∧
      adaptiveDelay variance sess delayType factor r1 r2 r3 ≤
        max (max (1/20) ((baseDelayRange delayType).1 * factor * (1 + variance)) + 1/10)
          ((baseDelayRange delayType).2 * factor * (1 + variance)) := by
  obtain ⟨hb0, hbm⟩ := baseDelayRange_pos delayType
  set bmin := (baseDelayRange delayType).1 with hbmin
  set bmax := (baseDelayRange delayType).2 with hbmax
  have hbf : 0 ≤ bmin * factor := mul_nonneg hb0 hf
  have hbf' : 0 ≤ bmax * factor := mul_nonneg (le_trans hb0 hbm) hf
  simp only [adaptiveDelay, pymax_eq_max, ← hbmin, ← hbmax]
  set minS := bmin * factor * (1 - variance + r1 * variance * 2) with hminS
  set maxS := bmax * factor * (1 - variance + r2 * variance * 2) with hmaxS
  set minD := max (1/20 : ℚ) minS with hminD
  set maxD := max (minD + 1/10) maxS with hmaxD
  have h1 : bmin * factor * (1 - variance) ≤ minS := by
    rw [hminS]; nlinarith [mul_nonneg (mul_nonneg hr1 hv0) hbf]
  have h2 : minS ≤ bmin * factor * (1 + variance) := by
    rw [hminS]; nlinarith [mul_nonneg hbf hv0, mul_le_one₀ hr1' hr2 hr2', mul_nonneg hbf (mul_nonneg hr1 hv0)]
  have h3 : maxS ≤ bmax * factor * (1 + variance) := by
    rw [hmaxS]; nlinarith [mul_nonneg hbf' hv0, mul_nonneg hbf' (mul_nonneg hr2 hv0)]
  have hlow : max (1/20 : ℚ) (bmin * factor * (1 - variance)) ≤ minD := by
    rw [hminD]; exact max_le_max le_rfl h1
  have hmm : minD ≤ maxD := le_trans (by linarith) (le_max_left _ _)
  have hdlow : minD ≤ minD + r3 * (maxD - minD) := by nlinarith [mul_nonneg hr3 (sub_nonneg.mpr hmm)]
  have hdhigh : minD + r3 * (maxD - minD) ≤ maxD := by nlinarith [mul_nonneg (sub_nonneg.mpr hr3') (sub_nonneg.mpr hmm)]
  have hup : maxD ≤ max (max (1/20 : ℚ) (bmin * factor * (1 + variance)) + 1/10)
      (bmax * factor * (1 + variance)) := by
    rw [hmaxD]
    refine max_le_max ?_ h3
    have : minD ≤ max (1/20 : ℚ) (bmin * factor * (1 + variance)) := by
      rw [hminD]; exact max_le_max le_rfl h2
    linarith
  exact ⟨le_trans hlow hdlow, le_trans hdhigh hup⟩

/-- C5 counterexample: with delay class `micro`, factor 1/100, the default
variance 0.3 and the draws r1 = r2 = 1/2, r3 = 9/10, `adaptive_delay`
sleeps 7/50 = 0.14 seconds, strictly above the claimed upper bound
`configuredMax * factor * (1 + v) = 0.5 * 0.01 * 1.3 = 0.0065`: the
`max(min_delay + 0.1, ...)` clamp of line 2154 can push the sampled range
above the claimed interval when the factor is small. -/
theorem claim_C5_counterexample :
    adaptiveDelay (3/10) ⟨0, 0⟩ "micro" (1/100) (1/2) (1/2) (9/10) = 7/50 ∧
    ¬ (adaptiveDelay (3/10) ⟨0, 0⟩ "micro" (1/100) (1/2) (1/2) (9/10) ≤
        (baseDelayRange "micro").2 * (1/100) * (1 + 3/10)) := by
  have hbd : baseDelayRange "micro" = (1/10, 1/2) := by simp [baseDelayRange]
  have hd : adaptiveDelay (3/10) ⟨0, 0⟩ "micro" (1/100) (1/2) (1/2) (9/10) = 7/50 := by
    simp only [adaptiveDelay, hbd, pymax]
    norm_num
  rw [hd, hbd]
  norm_num

/-- C5 (amended): for every delay class in the configured set, every
severity factor and variance fraction, the slept duration lies within the
claimed interval once both ends are clamped the way lines 2153-2154 clamp
them: it is at least `max(0.05, configuredMin*factor*(1-v))` and at most
`max(max(0.05, configuredMin*factor*(1+v)) + 0.1, configuredMax*factor*(1+v))`
(the claimed bounds with the 0.05 floor on the lower end and the
`min_delay + 0.1` floor on the upper end). -/
theorem claim_C5_delay_bounds_amended (variance factor r1 r2 r3 : ℚ) (sess : SessionCounters)
    (delayType : String)
    (hdt : delayType ∈ ["micro", "short", "medium", "long", "break", "session_gap"])
    (hv0 : 0 ≤ variance) (hf : 0 ≤ factor)
    (hr1 : 0 ≤ r1) (hr1' : r1 ≤ 1) (hr2 : 0 ≤ r2) (hr2' : r2 ≤ 1)
    (hr3 : 0 ≤ r3) (hr3' : r3 ≤ 1) :
    max (1/20) ((baseDelayRange delayType).1 * factor * (1 - variance)) ≤
        adaptiveDelay variance sess delayType factor r1 r2 r3 ∧
      adaptiveDelay variance sess delayType factor r1 r2 r3 ≤
        max (max (1/20) ((baseDelayRange delayType).1 * factor * (1 + variance)) + 1/10)
          ((baseDelayRange delayType).2 * factor * (1 + variance)) :=
  adaptiveDelay_bounds variance factor r1 r2 r3 sess delayType hv0 hf hr1 hr1' hr2 hr2' hr3 hr3'

/-- Witness for the amended C5 at the `micro` class with factor 1 and
variance 0. -/
theorem claim_C5_delay_bounds_amended_witness :
    max (1/20) ((baseDelayRange "micro").1 * 1 * (1 - 0)) ≤
        adaptiveDelay 0 ⟨0, 0⟩ "micro" 1 0 0 1 ∧
      adaptiveDelay 0 ⟨0, 0⟩ "micro" 1 0 0 1 ≤
        max (max (1/20) ((baseDelayRange "micro").1 * 1 * (1 + 0)) + 1/10)
          ((baseDelayRange "micro").2 * 1 * (1 + 0)) :=
  claim_C5_delay_bounds_amended 0 1 0 0 1 ⟨0, 0⟩ "micro"
    (List.Mem.head _) (le_refl 0) zero_le_one (le_refl 0) zero_le_one (le_refl 0) zero_le_one
    zero_le_one (le_refl 1)

/-- C1: for an account-processing run that gets past session start and API
initialisation, an exception injected into the profile-update phase or the
liking phase is caught at the orchestrator boundary and still routes to
session finalization: starting from an empty store, exactly one session row
is persisted and its end time is non-null (set by `end_enhanced_session` in
the `finally` block). -/
theorem claim_C1_orchestrator_always_finalizes (s : OrchScript)
    (hstart : s.startOk = true) (hapi : s.apiOk = true) (hstartup : s.startupOk = true)
    (hprofile : s.profileOk = true) (hgold : s.isGold = true)
    (hraise : (s.needsUpdate = true ∧ s.raiseProfileUpdate = true) ∨
      (s.likeCfg = true ∧ s.raiseLiking = true)) :
    (processSingleAccountEnhanced s ⟨[], 0⟩).sessions.length = 1 ∧
    ∀ row ∈ (processSingleAccountEnhanced s ⟨[], 0⟩).sessions,
      row.session_end.isSome = true := by
  obtain ⟨startOk, apiOk, startupOk, profileOk, isGold, fetched, cached, should, recheck,
    needs, rp, rl, lcfg⟩ := s
  simp only at hstart hapi hstartup hprofile hgold hraise
  subst hstart hapi hstartup hprofile hgold
  simp only [processSingleAccountEnhanced, startEnhancedSession, if_pos rfl, tryBody,
    endEnhancedSession]
  norm_num
  cases fetched <;> cases recheck <;>
    split_ifs <;>
      simp_all [SessionRow.session_end]

/-- Witness for C1: the concrete script whose liking phase raises. -/
theorem claim_C1_orchestrator_always_finalizes_witness :
    orchScriptC1.startOk = true ∧ orchScriptC1.apiOk = true ∧ orchScriptC1.startupOk = true ∧
    orchScriptC1.profileOk = true ∧ orchScriptC1.isGold = true ∧
    (orchScriptC1.likeCfg = true ∧ orchScriptC1.raiseLiking = true) ∧
    ((processSingleAccountEnhanced orchScriptC1 ⟨[], 0⟩).sessions.length = 1 ∧
      ∀ row ∈ (processSingleAccountEnhanced orchScriptC1 ⟨[], 0⟩).sessions,
        row.session_end.isSome = true) :=
  ⟨rfl, rfl, rfl, rfl, rfl, ⟨rfl, rfl⟩,
    claim_C1_orchestrator_always_finalizes orchScriptC1 rfl rfl rfl rfl rfl
      (Or.inr ⟨rfl, rfl⟩)⟩

/-- Helper: looking up a popped key yields nothing. -/
theorem dictGet_dictPop_self (d : List (String × String)) (k : String) :
    dictGet (dictPop d k) k = none := by
  induction d with
  | nil => rfl
  | cons hd tl ih =>
    by_cases hh : hd.1 = k
    · simp only [dictPop, if_pos hh]; exact ih
    · simp only [dictPop, dictGet, if_neg hh]; exact ih

/-- Helper: popping one key leaves lookups of other keys unchanged. -/
theorem dictGet_dictPop_ne (d : List (String × String)) (k k' : String) (h : ¬ k' = k) :
    dictGet (dictPop d k) k' = dictGet d k' := by
  induction d with
  | nil => rfl
  | cons hd tl ih =>
    by_cases hh : hd.1 = k
    · have hne : ¬ hd.1 = k' := by rw [hh]; exact fun hc => h hc.symm
      simp only [dictPop, if_pos hh, dictGet, if_neg hne]
      exact ih
    · by_cases hk' : hd.1 = k'
      · simp only [dictPop, if_neg hh, dictGet, if_pos hk']
      · simp only [dictPop, if_neg hh, dictGet, if_neg hk']
        exact ih

/-- Helper: looking up a just-assigned key yields the assigned value. -/
theorem dictGet_dictSet_self (d : List (String × String)) (k v : String) :
    dictGet (dictSet d k v) k = some v := by
  induction d with
  | nil => simp [dictSet, dictGet]
  | cons hd tl ih =>
    by_cases hh : hd.1 = k
    · simp only [dictSet, if_pos hh, dictGet]
      simp
    · simp only [dictSet, if_neg hh, dictGet, if_neg hh]
      exact ih

/-- C10: for endpoint type "auth", whether or not an auth token is set and
whatever the correlation flag says, the produced header dict carries
`Content-Type: application/x-protobuf` and none of the keys `x-auth-token`,
`user-session-id` or `user-session-time-elapsed` — the login request never
carries stale credential or session identifiers. -/
theorem claim_C10_auth_headers_carry_no_session (st : ApiHeaderState) (includeCorrelation : Bool)
    (elapsedStr correlationId connectionSpeed : String) :
    dictGet (headersFn st "auth" includeCorrelation elapsedStr correlationId connectionSpeed)
        "Content-Type" = some "application/x-protobuf" ∧
    dictGet (headersFn st "auth" includeCorrelation elapsedStr correlationId connectionSpeed)
        "x-auth-token" = none ∧
    dictGet (headersFn st "auth" includeCorrelation elapsedStr correlationId connectionSpeed)
        "user-session-id" = none ∧
    dictGet (headersFn st "auth" includeCorrelation elapsedStr correlationId connectionSpeed)
        "user-session-time-elapsed" = none := by
  have e1 : (¬ (("auth" : String) = "auth" ∨ ("auth" : String) = "healthcheck" ∨
      ("auth" : String) = "buckets_initial")) = False :=
    eq_false (by decide)
  have e2 : (includeCorrelation = true ∧ ¬ (("auth" : String) = "healthcheck" ∨
      ("auth" : String) = "auth")) = False :=
    eq_false (fun hc => hc.2 (Or.inr rfl))
  have e3 : (("auth" : String) = "auth") = True := eq_true rfl
  cases htok : st.auth_token with
  | none =>
    simp only [headersFn, htok, e1, e2, e3, if_false, if_true]
    refine ⟨?_, ?_, ?_, ?_⟩
    · rw [dictGet_dictPop_ne _ _ _ (by decide), dictGet_dictPop_ne _ _ _ (by decide),
        dictGet_dictPop_ne _ _ _ (by decide), dictGet_dictSet_self]
    · rw [dictGet_dictPop_ne _ _ _ (by decide), dictGet_dictPop_ne _ _ _ (by decide),
        dictGet_dictPop_self]
    · rw [dictGet_dictPop_ne _ _ _ (by decide), dictGet_dictPop_self]
    · rw [dictGet_dictPop_self]
  | some tok =>
    simp only [headersFn, htok, e1, e2, e3, if_false, if_true]
    refine ⟨?_, ?_, ?_, ?_⟩
    · rw [dictGet_dictPop_ne _ _ _ (by decide), dictGet_dictPop_ne _ _ _ (by decide),
        dictGet_dictPop_ne _ _ _ (by decide), dictGet_dictSet_self]
    · rw [dictGet_dictPop_ne _ _ _ (by decide), dictGet_dictPop_ne _ _ _ (by decide),
        dictGet_dictPop_self]
    · rw [dictGet_dictPop_ne _ _ _ (by decide), dictGet_dictPop_self]
    · rw [dictGet_dictPop_self]

/-- C6: every response whose (lowercased) string form contains the phrase
"account_disabled" is scored at or above the MARK_BANNED sensitivity
threshold of 0.8 by `_check_ban_indicators`, while an empty successful dict
with no other indicator scores exactly 0.2, strictly below the
threshold. -/
theorem claim_C6_ban_indicator_threshold :
    (∀ r : PyResponse, strIn "account_disabled" r.reprLower = true →
      (8/10 : ℚ) ≤ checkBanIndicators r) ∧
    checkBanIndicators { reprLower := "\x7b\x7d", isEmptyDict := true } = 1/5 ∧
    ((1/5 : ℚ) < 8/10) := by
  have s1 : indicatorSeverity "rate_limited_until" = 7/10 := by
    rw [indicatorSeverity, if_neg (by decide)]
  have s2 : indicatorSeverity "APPEAL_BAN" = 1 := by
    rw [indicatorSeverity, if_pos (by decide)]
  have s3 : indicatorSeverity "account_disabled" = 1 := by
    rw [indicatorSeverity, if_pos (by decide)]
  have s4 : indicatorSeverity "temporarily_unavailable" = 7/10 := by
    rw [indicatorSeverity, if_neg (by decide)]
  have s5 : indicatorSeverity "too_many_requests" = 7/10 := by
    rw [indicatorSeverity, if_neg (by decide)]
  have hlow : asciiLower "account_disabled" = "account_disabled" := by decide
  refine ⟨?_, ?_, by norm_num⟩
  · intro r h
    simp only [checkBanIndicators, BAN_INDICATORS, banIndicatorLoop, hlow, h, s1, s2, s3, s4, s5,
      if_true]
    split_ifs <;> norm_num
  · have c1 : strIn (asciiLower "rate_limited_until") "\x7b\x7d" = false := by decide
    have c2 : strIn (asciiLower "APPEAL_BAN") "\x7b\x7d" = false := by decide
    have c3 : strIn (asciiLower "account_disabled") "\x7b\x7d" = false := by decide
    have c4 : strIn (asciiLower "temporarily_unavailable") "\x7b\x7d" = false := by decide
    have c5 : strIn (asciiLower "too_many_requests") "\x7b\x7d" = false := by decide
    have c6 : strIn "rate_limited_until" "\x7b\x7d" = false := by decide
    have c7 : strIn "too_many_requests" "\x7b\x7d" = false := by decide
    simp only [checkBanIndicators, BAN_INDICATORS, banIndicatorLoop, c1, c2, c3, c4, c5, c6, c7]
    norm_num

/-- Witness for C6 at the concrete response whose string form is exactly
the banned phrase. -/
theorem claim_C6_ban_indicator_threshold_witness :
    strIn "account_disabled" ("account_disabled" : String) = true ∧
    (8/10 : ℚ) ≤ checkBanIndicators { reprLower := "account_disabled", isEmptyDict := false } :=
  ⟨by decide,
    claim_C6_ban_indicator_threshold.1 { reprLower := "account_disabled", isEmptyDict := false }
      (by decide)⟩

/-- C2: starting from 25 unique available items with
`max_likes_per_session = 10` (session end not reached, stop flag unset,
`process_all_liked_me` on), the batch run stops after exactly 10 successful
like actions (10 users processed, 10 `api.like_user` calls issued), and the
cached liked-me count written back is `max(0, 25 - 10) = 15`, computed by
subtraction rather than re-fetched: the only wire calls of the whole run
are the initial count fetch and one page fetch (`api_calls_made = 2`). -/
theorem claim_C2_queue_batch_quota_and_writeback :
    processAllLikedMeEnhanced ⟨10, true⟩ [some 25] [queueUsersC2] =
      ({ users_processed := 10, likes_sent := 10, passes_sent := 0, matches_gained := 0,
         api_calls_made := 2, cycles_completed := 1, total_available := 25 }, 10, 15) := by
  decide

/-- Helper: call counts of one step's repeat loop, for the step's own
index. -/
theorem stepRepeatEvents_count_call_self (oc : Nat → Bool) (i : Nat) (ep : String) :
    ∀ (n rep : Nat), (stepRepeatEvents oc i ep rep n).countP (isCallOfStep i) = n := by
  intro n
  induction n with
  | zero => intro rep; rfl
  | succ m ih =>
    intro rep
    have h1 : isCallOfStep i (TraceEvent.call i ep (oc rep)) = true := by simp [isCallOfStep]
    have h2 : isCallOfStep i (TraceEvent.delayBetweenRepeats i) = false := by simp [isCallOfStep]
    by_cases hm : m = 0 <;>
      simp [stepRepeatEvents, hm, List.countP_cons, List.countP_append, List.countP_nil, h1, h2, ih]

/-- Helper: one step's repeat loop issues no calls tagged with another
step's index. -/
theorem stepRepeatEvents_count_call_ne (oc : Nat → Bool) (i j : Nat) (ep : String) (h : ¬ j = i) :
    ∀ (n rep : Nat), (stepRepeatEvents oc i ep rep n).countP (isCallOfStep j) = 0 := by
  intro n
  induction n with
  | zero => intro rep; rfl
  | succ m ih =>
    intro rep
    have h1 : isCallOfStep j (TraceEvent.call i ep (oc rep)) = false := by
      simp [isCallOfStep]; exact fun hc => h hc.symm
    have h2 : isCallOfStep j (TraceEvent.delayBetweenRepeats i) = false := by simp [isCallOfStep]
    by_cases hm : m = 0 <;>
      simp [stepRepeatEvents, hm, List.countP_cons, List.countP_append, List.countP_nil, h1, h2, ih]

/-- Helper: between-repeat delay counts of one step's repeat loop, for the
step's own index. -/
theorem stepRepeatEvents_count_rdelay_self (oc : Nat → Bool) (i : Nat) (ep : String) :
    ∀ (n rep : Nat), (stepRepeatEvents oc i ep rep n).countP (isRepeatDelayOfStep i) = n - 1 := by
  intro n
  induction n with
  | zero => intro rep; rfl
  | succ m ih =>
    intro rep
    have h1 : isRepeatDelayOfStep i (TraceEvent.call i ep (oc rep)) = false := by
      simp [isRepeatDelayOfStep]
    have h2 : isRepeatDelayOfStep i (TraceEvent.delayBetweenRepeats i) = true := by
      simp [isRepeatDelayOfStep]
    by_cases hm : m = 0
    · simp [stepRepeatEvents, hm, List.countP_cons, List.countP_append, List.countP_nil, h1, h2]
    · simp [stepRepeatEvents, hm, List.countP_cons, List.countP_append, List.countP_nil, h1, h2, ih]
      omega

/-- Helper: one step's repeat loop inserts no between-repeat delays tagged
with another step's index. -/
theorem stepRepeatEvents_count_rdelay_ne (oc : Nat → Bool) (i j : Nat) (ep : String)
    (h : ¬ j = i) :
    ∀ (n rep : Nat), (stepRepeatEvents oc i ep rep n).countP (isRepeatDelayOfStep j) = 0 := by
  intro n
  induction n with
  | zero => intro rep; rfl
  | succ m ih =>
    intro rep
    have h1 : isRepeatDelayOfStep j (TraceEvent.call i ep (oc rep)) = false := by
      simp [isRepeatDelayOfStep]
    have h2 : isRepeatDelayOfStep j (TraceEvent.delayBetweenRepeats i) = false := by
      simp [isRepeatDelayOfStep]; exact fun hc => h hc.symm
    by_cases hm : m = 0 <;>
      simp [stepRepeatEvents, hm, List.countP_cons, List.countP_append, List.countP_nil, h1, h2, ih]

/-- Helper: steps at indices at or above `k` produce no events tagged with
an index below `k`. -/
theorem execPatternSteps_count_out (oc : Nat → Nat → Bool) (lastStep : Option ReqStep) (j : Nat) :
    ∀ (steps : List ReqStep) (k : Nat), j < k →
      (execPatternSteps oc lastStep k steps).countP (isCallOfStep j) = 0 ∧
      (execPatternSteps oc lastStep k steps).countP (isRepeatDelayOfStep j) = 0 := by
  intro steps
  induction steps with
  | nil => intro k hk; exact ⟨rfl, rfl⟩
  | cons st rest ih =>
    intro k hk
    have hne : ¬ j = k := by omega
    have hd1 : ∀ c, (isCallOfStep j (TraceEvent.delayBetweenSteps k c)) = false := by
      intro c; simp [isCallOfStep]
    have hd2 : ∀ c, (isRepeatDelayOfStep j (TraceEvent.delayBetweenSteps k c)) = false := by
      intro c; simp [isRepeatDelayOfStep]
    have hrec := ih (k + 1) (by omega)
    have hseg1 : (if some st ≠ lastStep then
        [TraceEvent.delayBetweenSteps k (if st.critical then "short" else "micro")]
      else ([] : List TraceEvent)).countP (isCallOfStep j) = 0 := by
      split_ifs <;> simp [List.countP_cons, List.countP_nil, hd1]
    have hseg2 : (if some st ≠ lastStep then
        [TraceEvent.delayBetweenSteps k (if st.critical then "short" else "micro")]
      else ([] : List TraceEvent)).countP (isRepeatDelayOfStep j) = 0 := by
      split_ifs <;> simp [List.countP_cons, List.countP_nil, hd2]
    constructor
    · simp only [execPatternSteps, List.countP_append,
        stepRepeatEvents_count_call_ne (oc k) k j st.endpoint hne, hseg1, hrec.1]
    · simp only [execPatternSteps, List.countP_append,
        stepRepeatEvents_count_rdelay_ne (oc k) k j st.endpoint hne, hseg2, hrec.2]

/-- Helper: per-step event counts of the step loop started at index `k`. -/
theorem execPatternSteps_count_in (oc : Nat → Nat → Bool) (lastStep : Option ReqStep) :
    ∀ (steps : List ReqStep) (k j : Nat) (h1 : k ≤ j) (h2 : j - k < steps.length),
      (execPatternSteps oc lastStep k steps).countP (isCallOfStep j) =
        (steps.get ⟨j - k, h2⟩).repeat_count ∧
      (execPatternSteps oc lastStep k steps).countP (isRepeatDelayOfStep j) =
        (steps.get ⟨j - k, h2⟩).repeat_count - 1 := by
  intro steps
  induction steps with
  | nil => intro k j h1 h2; simp at h2
  | cons st rest ih =>
    intro k j h1 h2
    have hd1 : ∀ c, (isCallOfStep j (TraceEvent.delayBetweenSteps k c)) = false := by
      intro c; simp [isCallOfStep]
    have hd2 : ∀ c, (isRepeatDelayOfStep j (TraceEvent.delayBetweenSteps k c)) = false := by
      intro c; simp [isRepeatDelayOfStep]
    have hseg1 : (if some st ≠ lastStep then
        [TraceEvent.delayBetweenSteps k (if st.critical then "short" else "micro")]
      else ([] : List TraceEvent)).countP (isCallOfStep j) = 0 := by
      split_ifs <;> simp [List.countP_cons, List.countP_nil, hd1]
    have hseg2 : (if some st ≠ lastStep then
        [TraceEvent.delayBetweenSteps k (if st.critical then "short" else "micro")]
      else ([] : List TraceEvent)).countP (isRepeatDelayOfStep j) = 0 := by
      split_ifs <;> simp [List.countP_cons, List.countP_nil, hd2]
    by_cases hjk : j = k
    · subst hjk
      have hout := execPatternSteps_count_out oc lastStep j rest (j + 1) (by omega)
      have hget : j - j = 0 := by omega
      constructor
      · simp only [execPatternSteps, List.countP_append,
          stepRepeatEvents_count_call_self (oc j) j st.endpoint, hseg1, hout.1, hget]
        simp
      · simp only [execPatternSteps, List.countP_append,
          stepRepeatEvents_count_rdelay_self (oc j) j st.endpoint, hseg2, hout.2, hget]
        simp
    · have hlt : j - (k + 1) < rest.length := by simp at h2; omega
      have hrec := ih (k + 1) j (by omega) hlt
      have hne : ¬ j = k := hjk
      have hget : (st :: rest).get ⟨j - k, h2⟩ = rest.get ⟨j - (k + 1), hlt⟩ := by
        have hjk1 : j - k = (j - (k + 1)) + 1 := by omega
        simp only [hjk1, List.get_cons_succ]
      constructor
      · simp only [execPatternSteps, List.countP_append,
          stepRepeatEvents_count_call_ne (oc k) k j st.endpoint hne, hseg1, hrec.1, hget]
        omega
      · simp only [execPatternSteps, List.countP_append,
          stepRepeatEvents_count_rdelay_ne (oc k) k j st.endpoint hne, hseg2, hrec.2, hget]
        omega

/-- C3: with the stop flag unset throughout, every step of a request
pattern with repeat count N issues exactly N wire-client calls and inserts
exactly N-1 between-repeat micro-delays, whatever the individual call
outcomes are (the outcome oracle `oc` is universally quantified, so failing
calls — critical or not — never shorten the trace of the step itself or of
the remaining steps). -/
theorem claim_C3_pattern_executor_counts (steps : List ReqStep) (oc : Nat → Nat → Bool)
    (i : Nat) (hi : i < steps.length) :
    (executeRequestPattern oc steps).countP (isCallOfStep i) =
      (steps.get ⟨i, hi⟩).repeat_count ∧
    (executeRequestPattern oc steps).countP (isRepeatDelayOfStep i) =
      (steps.get ⟨i, hi⟩).repeat_count - 1 := by
  have h := execPatternSteps_count_in oc steps.getLast? steps 0 i (by omega) (by omega)
  have hg : steps.get ⟨i - 0, by omega⟩ = steps.get ⟨i, hi⟩ := by congr 1
  exact ⟨by rw [executeRequestPattern, h.1, hg], by rw [executeRequestPattern, h.2, hg]⟩

/-- Witness for C3: the first step of the `liked_me_processing` pattern
(repeat count 3) under an oracle that fails every call still produces
exactly 3 calls and 2 between-repeat delays. -/
theorem claim_C3_pattern_executor_counts_witness :
    0 < likedMeProcessingPattern.length ∧
    (executeRequestPattern (fun _ _ => false) likedMeProcessingPattern).countP
        (isCallOfStep 0) = (likedMeProcessingPattern.get ⟨0, by decide⟩).repeat_count ∧
    (executeRequestPattern (fun _ _ => false) likedMeProcessingPattern).countP
        (isRepeatDelayOfStep 0) =
      (likedMeProcessingPattern.get ⟨0, by decide⟩).repeat_count - 1 :=
  ⟨by decide,
    (claim_C3_pattern_executor_counts likedMeProcessingPattern (fun _ _ => false) 0 (by decide)).1,
    (claim_C3_pattern_executor_counts likedMeProcessingPattern (fun _ _ => false) 0 (by decide)).2⟩

/-- C9: a fetched page that yields zero new users (every id already in the
session's de-duplication set) terminates the pagination loop immediately:
the loop returns right after accounting for that one page fetch, never
touching the remaining pages, even when `total_available` still exceeds
`users_processed`. -/
theorem claim_C9_all_duplicate_page_terminates (cfg : BatchCfg) (seen : List String)
    (stats : LikedStats) (likeCalls : Nat) (page : List LikedUser)
    (rest : List (List LikedUser))
    (hpage : page ≠ []) (hnew : (filterNewUsers seen page).1 = [])
    (havail : stats.users_processed < stats.total_available) :
    likedMeLoop cfg (page :: rest) seen stats likeCalls =
      ({ stats with api_calls_made := stats.api_calls_made + 1 }, likeCalls) := by
  simp only [likedMeLoop, hnew, if_neg hpage, if_pos rfl]
  simp [hpage, hnew]

/-- Witness for C9: a singleton page repeating an already-seen id, with two
further pages pending and 5 items still reported available. -/
theorem claim_C9_all_duplicate_page_terminates_witness :
    ([⟨some "a", LikeOutcome.success⟩] : List LikedUser) ≠ [] ∧
    (filterNewUsers ["a"] [⟨some "a", LikeOutcome.success⟩]).1 = [] ∧
    (0 : Nat) < 5 ∧
    likedMeLoop ⟨10, true⟩
        ([⟨some "a", LikeOutcome.success⟩] :: [[⟨some "b", LikeOutcome.success⟩]]) ["a"]
        ⟨0, 0, 0, 0, 1, 0, 5⟩ 0 =
      (⟨0, 0, 0, 0, 2, 0, 5⟩, 0) :=
  ⟨by decide, by decide, by decide,
    claim_C9_all_duplicate_page_terminates ⟨10, true⟩ ["a"] ⟨0, 0, 0, 0, 1, 0, 5⟩ 0
      [⟨some "a", LikeOutcome.success⟩] [[⟨some "b", LikeOutcome.success⟩]]
      (by decide) (by decide) (by decide)⟩


/-- Helper: the outer field loop on an empty buffer returns the accumulated
result at any fuel. -/
theorem parseAuthFieldsF_nil (fuel : Nat) (acc : AuthOk) :
    parseAuthFieldsF fuel [] acc = .ok acc := by
  cases fuel <;> rfl

/-- Helper: the outer field loop is independent of its iteration bound as
long as the bound covers the buffer length. -/
theorem parseAuthFieldsF_congr :
    ∀ (f1 : Nat) (l : List Nat) (acc : AuthOk) (f2 : Nat),
      l.length ≤ f1 → l.length ≤ f2 →
      parseAuthFieldsF f1 l acc = parseAuthFieldsF f2 l acc := by
  intro f1
  induction f1 with
  | zero =>
    intro l acc f2 h1 _
    have : l = [] := by
      cases l with
      | nil => rfl
      | cons a t => simp at h1
    subst this
    rw [parseAuthFieldsF_nil, parseAuthFieldsF_nil]
  | succ f ih =>
    intro l acc f2 h1 h2
    cases l with
    | nil => rw [parseAuthFieldsF_nil, parseAuthFieldsF_nil]
    | cons key rest =>
      cases f2 with
      | zero => simp at h2
      | succ g =>
        simp only [parseAuthFieldsF]
        have hlen : rest.length ≤ f := by simp at h1; omega
        have hlen2 : rest.length ≤ g := by simp at h2; omega
        split_ifs
        · cases parseLoginFields
              ((rest.drop (decodeVarintList rest 0 0).2).take (decodeVarintList rest 0 0).1)
              acc with
          | none => rfl
          | some acc' =>
            exact ih _ _ _ (le_trans (by simp [List.length_drop]) hlen)
              (le_trans (by simp [List.length_drop]) hlen2)
        · rfl
        · exact ih _ _ _ (le_trans (by simp [List.length_drop]) hlen)
            (le_trans (by simp [List.length_drop]) hlen2)
        · exact ih _ _ _ (le_trans (by simp [List.length_drop]) hlen)
            (le_trans (by simp [List.length_drop]) hlen2)
        · exact ih _ _ _ (le_trans (by simp [List.length_drop]) hlen)
            (le_trans (by simp [List.length_drop]) hlen2)



/-- Helper: the field number encoded in a wire-type-2 tag byte. -/
theorem tag_shiftRight (f : Nat) : (8 * f + 2) >>> 3 = f := by
  rw [Nat.shiftRight_eq_div_pow]
  omega

/-- Helper: the wire type encoded in a wire-type-2 tag byte. -/
theorem tag_and7 (f : Nat) : (8 * f + 2) &&& 0x7 = 2 := by
  have h := Nat.and_pow_two_sub_one_eq_mod (8 * f + 2) 3
  norm_num at h
  rw [h]
  omega

/-- Helper: masking with 0x7F keeps a value below 0x80. -/
theorem and127_lt (x : Nat) : x &&& 127 < 128 := by
  have h := Nat.and_pow_two_sub_one_eq_mod x 7
  norm_num at h
  rw [h]
  omega

/-- Helper: masking a sub-0x80 value with 0x7F is the identity. -/
theorem and127_of_lt {x : Nat} (h : x < 128) : x &&& 127 = x := by
  have h2 := Nat.and_pow_two_sub_one_eq_mod x 7
  norm_num at h2
  rw [h2]
  omega

/-- Helper: a sub-0x80 value has a clear continuation bit. -/
theorem and128_of_lt {x : Nat} (h : x < 128) : x &&& 128 = 0 := by
  have h1 : x.testBit 7 = false := Nat.testBit_lt_two_pow (by norm_num; omega)
  have h2 := Nat.and_two_pow x 7
  norm_num at h2
  rw [h2, h1]
  rfl

/-- Helper: a byte with the continuation bit set tests positive for it. -/
theorem or128_and128 (x : Nat) : ((x &&& 127) ||| 128) &&& 128 = 128 := by
  apply Nat.eq_of_testBit_eq
  intro i
  have h127 : (127 : Nat) = 2 ^ 7 - 1 := by norm_num
  have h128 : (128 : Nat) = 2 ^ 7 := by norm_num
  simp only [Nat.testBit_and, Nat.testBit_or, h127, h128, Nat.testBit_two_pow,
    Nat.testBit_two_pow_sub_one]
  by_cases h : 7 = i <;> simp [h]

/-- Helper: setting the continuation bit does not change the low 7 bits. -/
theorem or128_and127 (x : Nat) : ((x &&& 127) ||| 128) &&& 127 = x &&& 127 := by
  apply Nat.eq_of_testBit_eq
  intro i
  have h127 : (127 : Nat) = 2 ^ 7 - 1 := by norm_num
  have h128 : (128 : Nat) = 2 ^ 7 := by norm_num
  simp only [Nat.testBit_and, Nat.testBit_or, h127, h128, Nat.testBit_two_pow,
    Nat.testBit_two_pow_sub_one]
  by_cases h : i < 7
  · have : ¬ 7 = i := by omega
    simp [h, this]
  · simp [h]

/-- Helper: one step of varint reassembly, splitting a value into its low
7 bits and the rest. -/
theorem or_shift_split (acc v shift : Nat) :
    acc ||| v <<< shift = (acc ||| ((v &&& 127) <<< shift)) ||| ((v >>> 7) <<< (shift + 7)) := by
  apply Nat.eq_of_testBit_eq
  intro i
  have h127 : (127 : Nat) = 2 ^ 7 - 1 := by norm_num
  simp only [Nat.testBit_or, Nat.testBit_shiftLeft, Nat.testBit_shiftRight, Nat.testBit_and,
    h127, Nat.testBit_two_pow_sub_one]
  by_cases h1 : shift ≤ i
  · by_cases h2 : shift + 7 ≤ i
    · have e1 : ¬ (i - shift < 7) := by omega
      have e2 : 7 + (i - (shift + 7)) = i - shift := by omega
      simp [h1, h2, e1, e2, Bool.or_assoc]
    · have e1 : i - shift < 7 := by omega
      simp [h1, h2, e1]
  · have h2 : ¬ (shift + 7 ≤ i) := by omega
    simp [h1, h2]



/-- Helper: the varint encoder is independent of its iteration bound as
long as the bound covers the value. -/
theorem encodeVarintAux_congr :
    ∀ (f1 v f2 : Nat), v ≤ f1 → v ≤ f2 → encodeVarintAux f1 v = encodeVarintAux f2 v := by
  intro f1
  induction f1 with
  | zero =>
    intro v f2 h1 _
    have hv : v = 0 := by omega
    subst hv
    cases f2 with
    | zero => rfl
    | succ g => simp [encodeVarintAux]
  | succ f ih =>
    intro v f2 h1 h2
    by_cases hv : v ≥ 0x80
    · cases f2 with
      | zero => omega
      | succ g =>
        simp only [encodeVarintAux, if_pos hv]
        have hlt : v >>> 7 < v := by
          rw [Nat.shiftRight_eq_div_pow]
          exact Nat.div_lt_self (by omega) (by norm_num)
        exact congrArg _ (ih (v >>> 7) g (by omega) (by omega))
    · cases f2 with
      | zero =>
        have : v = 0 := by omega
        subst this
        simp [encodeVarintAux]
      | succ g => simp only [encodeVarintAux, if_neg hv]

/-- Helper: the direct recursive reading of the `_encode_varint` loop. -/
theorem encodeVarint_eq (v : Nat) :
    encodeVarint v =
      if v ≥ 0x80 then ((v &&& 0x7F) ||| 0x80) :: encodeVarint (v >>> 7)
      else [v &&& 0x7F] := by
  by_cases hv : v ≥ 0x80
  · rw [if_pos hv, encodeVarint, encodeVarint]
    obtain ⟨k, rfl⟩ : ∃ k, v = k + 1 := ⟨v - 1, by omega⟩
    simp only [encodeVarintAux, if_pos hv]
    have hlt : (k + 1) >>> 7 < k + 1 := by
      rw [Nat.shiftRight_eq_div_pow]
      exact Nat.div_lt_self (by omega) (by norm_num)
    exact congrArg _ (encodeVarintAux_congr k ((k + 1) >>> 7) ((k + 1) >>> 7) (by omega) le_rfl)
  · rw [if_neg hv, encodeVarint]
    cases v with
    | zero => rfl
    | succ k => simp only [encodeVarintAux, if_neg hv]

/-- Helper: `_decode_varint` inverts `_encode_varint` at the head of any
buffer, consuming exactly the encoded bytes. -/
theorem decodeVarintList_encodeVarint (v : Nat) :
    ∀ (l : List Nat) (shift acc : Nat),
      decodeVarintList (encodeVarint v ++ l) shift acc =
        (acc ||| (v <<< shift), (encodeVarint v).length) := by
  induction v using Nat.strong_induction_on with
  | _ v ih =>
    intro l shift acc
    rw [encodeVarint_eq]
    by_cases hv : v ≥ 0x80
    · rw [if_pos hv]
      have hlt : v >>> 7 < v := by
        rw [Nat.shiftRight_eq_div_pow]
        exact Nat.div_lt_self (by omega) (by norm_num)
      have hb : ((v &&& 127) ||| 128) &&& 128 = 128 := or128_and128 v
      simp only [List.cons_append, decodeVarintList, hb]
      norm_num
      rw [or128_and127, ih (v >>> 7) hlt l (shift + 7) (acc ||| ((v &&& 127) <<< shift))]
      constructor
      · rw [← or_shift_split]
      · simp [List.length_cons]
    · rw [if_neg hv]
      have hx : v &&& 127 = v := and127_of_lt (by omega)
      have hz : v &&& 128 = 0 := and128_of_lt (by omega)
      simp only [List.cons_append, List.nil_append, decodeVarintList, hx, hz]
      simp



/-- Helper: the outer field loop consumes one leading length-delimited
field whose number is not 7, folding a field 8 whose sub-fields decode
cleanly into the accumulator and skipping any other number. -/
theorem parseAuthFields_lenField (f : Nat) (hf : ¬ f = 7) (payload rest : List Nat)
    (acc : AuthOk) (h8 : f = 8 → ¬ parseLoginFields payload acc = none) :
    parseAuthFields (encodeLenField f payload ++ rest) acc =
      parseAuthFields rest
        ((if f = 8 then parseLoginFields payload acc else some acc).getD acc) := by
  have hdec : decodeVarintList (encodeVarint payload.length ++ (payload ++ rest)) 0 0 =
      (payload.length, (encodeVarint payload.length).length) := by
    rw [decodeVarintList_encodeVarint]
    simp
  have hdrop : (encodeVarint payload.length ++ (payload ++ rest)).drop
      (encodeVarint payload.length).length = payload ++ rest := List.drop_left _ _
  have htake : (payload ++ rest).take payload.length = payload := List.take_left _ _
  have hdrop2 : (payload ++ rest).drop payload.length = rest := List.drop_left _ _
  have hshape : encodeLenField f payload ++ rest =
      (8 * f + 2) :: (encodeVarint payload.length ++ (payload ++ rest)) := by
    simp [encodeLenField, List.append_assoc]
  rw [parseAuthFields, hshape]
  have hlen : ((8 * f + 2) :: (encodeVarint payload.length ++ (payload ++ rest))).length =
      (encodeVarint payload.length ++ (payload ++ rest)).length + 1 := rfl
  rw [hlen]
  simp only [parseAuthFieldsF, tag_shiftRight, tag_and7, hdec, hdrop, htake, hdrop2]
  by_cases hf8 : f = 8
  · rw [if_pos hf8, if_pos hf8]
    obtain ⟨acc', hacc⟩ : ∃ a, parseLoginFields payload acc = some a := by
      cases hp : parseLoginFields payload acc with
      | none => exact absurd hp (h8 hf8)
      | some a => exact ⟨a, rfl⟩
    rw [hacc]
    simp only [Option.getD_some]
    exact parseAuthFieldsF_congr _ rest _ rest.length
      (by simp [List.length_append]; omega) le_rfl
  · rw [if_neg hf8, if_neg hf, if_neg hf8]
    simp only [if_true, Option.getD_some]
    exact parseAuthFieldsF_congr _ rest _ rest.length
      (by simp [List.length_append]; omega) le_rfl

/-- Helper: the outer field loop stops as soon as the leading field is
number 7, never looking at the remaining bytes: it returns the field-7
failure dict when the message decodes, and the exception failure dict when
the decode raises. -/
theorem parseAuthFields_field7 (payload rest : List Nat) (acc : AuthOk) :
    parseAuthFields (encodeLenField 7 payload ++ rest) acc =
      match parseErrorMessage payload "" with
      | some msg => .err msg
      | none => .codecException := by
  have hdec : decodeVarintList (encodeVarint payload.length ++ (payload ++ rest)) 0 0 =
      (payload.length, (encodeVarint payload.length).length) := by
    rw [decodeVarintList_encodeVarint]
    simp
  have hdrop : (encodeVarint payload.length ++ (payload ++ rest)).drop
      (encodeVarint payload.length).length = payload ++ rest := List.drop_left _ _
  have htake : (payload ++ rest).take payload.length = payload := List.take_left _ _
  have hshape : encodeLenField 7 payload ++ rest =
      (8 * 7 + 2) :: (encodeVarint payload.length ++ (payload ++ rest)) := by
    simp [encodeLenField, List.append_assoc]
  rw [parseAuthFields, hshape]
  have hlen : ((8 * 7 + 2) :: (encodeVarint payload.length ++ (payload ++ rest))).length =
      (encodeVarint payload.length ++ (payload ++ rest)).length + 1 := rfl
  rw [hlen]
  simp only [parseAuthFieldsF, tag_shiftRight, hdec, hdrop, htake]
  norm_num

/-- C8 counterexample: a buffer that does contain a field 7 whose sub-field
1 is "bad token", but preceded by a field 8 whose sub-field 1 is the byte
0xFF.  The decode at line 1337 raises `UnicodeDecodeError` before field 7
is reached, and the `except` handler of line 1395 returns its own failure
dict (`str(e)`, the exception text) — not the claimed
`{success: false, error: "bad token"}`. -/
theorem claim_C8_counterexample :
    parseAuthResponseManual (badUtf8FieldC8 ++ errFieldC8) = .codecException ∧
    AuthResult.codecException ≠ .err "bad token" :=
  ⟨by decide, by decide⟩

/-- C8 (amended): for every response buffer made of length-delimited fields
whose numbers are not 7 and which do not raise during decoding (a field 8
among them must have sub-fields that decode as UTF-8), followed by a field
7 whose sub-field 1 holds the UTF-8 string "bad token", followed by
arbitrary trailing bytes, the decoder returns the failure dict with error
"bad token"; the trailing bytes are universally quantified and absent from
the result, so decoding halts at field 7 without reading any outer field
that follows it. -/
theorem claim_C8_error_field_short_circuits (pre : List (Nat × List Nat))
    (hpre : ∀ p ∈ pre, ¬ p.1 = 7 ∧
      (p.1 = 8 → ∀ acc : AuthOk, ¬ parseLoginFields p.2 acc = none))
    (post : List Nat) :
    parseAuthResponseManual
        ((pre.map (fun p => encodeLenField p.1 p.2)).flatten ++ (errFieldC8 ++ post)) =
      .err "bad token" := by
  rw [parseAuthResponseManual]
  suffices h : ∀ acc, parseAuthFields
      ((pre.map (fun p => encodeLenField p.1 p.2)).flatten ++ (errFieldC8 ++ post)) acc =
      .err "bad token" from h {}
  induction pre with
  | nil =>
    intro acc
    have hmsg : parseErrorMessage (encodeLenField 1 (encodeUtf8 "bad token")) "" =
        some "bad token" := by
      decide
    simp only [List.map_nil, List.flatten_nil, List.nil_append, errFieldC8]
    rw [parseAuthFields_field7, hmsg]
  | cons p pre' ih =>
    intro acc
    have hp := hpre p (List.mem_cons_self p pre')
    have hpre' : ∀ q ∈ pre', ¬ q.1 = 7 ∧
        (q.1 = 8 → ∀ acc : AuthOk, ¬ parseLoginFields q.2 acc = none) :=
      fun q hq => hpre q (List.mem_cons_of_mem p hq)
    simp only [List.map_cons, List.flatten_cons, List.append_assoc]
    rw [parseAuthFields_lenField p.1 hp.1 p.2 _ acc (fun h8 => hp.2 h8 acc)]
    exact ih hpre' _

/-- Witness for C8: one skipped field (number 1) before the error field and
one trailing byte after it. -/
theorem claim_C8_error_field_short_circuits_witness :
    (∀ p ∈ ([(1, [65])] : List (Nat × List Nat)), ¬ p.1 = 7 ∧
      (p.1 = 8 → ∀ acc : AuthOk, ¬ parseLoginFields p.2 acc = none)) ∧
    parseAuthResponseManual
        ((([(1, [65])] : List (Nat × List Nat)).map (fun p => encodeLenField p.1 p.2)).flatten ++
          (errFieldC8 ++ [153])) = .err "bad token" :=
  ⟨fun p hp => by
    simp only [List.mem_singleton] at hp
    subst hp
    exact ⟨by decide, fun h8 => absurd h8 (by decide)⟩,
    claim_C8_error_field_short_circuits [(1, [65])]
      (fun p hp => by
        simp only [List.mem_singleton] at hp
        subst hp
        exact ⟨by decide, fun h8 => absurd h8 (by decide)⟩)
      [153]⟩

end TinderBot
